import Mathlib

/-!
# Knotably Yours: the page script (`script.js`)

A shallow embedding of the interactive behaviour of `script.js`: the contact
form validation, the e-mail format check, the notification toast, the mobile
menu, the scroll handler, the reveal animation and the `debounce` helper.

JavaScript strings are sequences of UTF-16 code units; the form values are
modelled as lists of code units so that `trim` and the regular expression see
exactly what the engine sees.  Texts that the script only passes around
(messages, class names, style values) are ordinary strings.
-/

namespace KnotablyYours

/-! ## Strings -/

/-- A UTF-16 code unit. -/
abbrev CodeUnit := Nat

/-- A JavaScript string value: its sequence of code units. -/
abbrev JSString := List CodeUnit

/-- The code units of one character (a surrogate pair above the basic plane). -/
def utf16Char (c : Char) : List CodeUnit :=
  if c.toNat < 0x10000 then [c.toNat]
  else [0xD800 + (c.toNat - 0x10000) / 0x400, 0xDC00 + (c.toNat - 0x10000) % 0x400]

/-- The JavaScript string value of a string literal. -/
def utf16 (s : String) : JSString :=
  s.toList.flatMap utf16Char

/-- The code unit of `@`. -/
def atSign : CodeUnit := 0x40

/-- The code unit of `.`. -/
def dot : CodeUnit := 0x2E

/-- White space and line terminators: what `String.prototype.trim` strips and
what `\s` matches in a regular expression. -/
def isWhiteSpace (c : CodeUnit) : Bool :=
  c == 0x09 || c == 0x0A || c == 0x0B || c == 0x0C || c == 0x0D || c == 0x20 ||
  c == 0xA0 || c == 0x1680 || (0x2000 ≤ c && c ≤ 0x200A) ||
  c == 0x2028 || c == 0x2029 || c == 0x202F || c == 0x205F || c == 0x3000 ||
  c == 0xFEFF

/-- The method `String.prototype.trimStart`. -/
def trimStart (s : JSString) : JSString :=
  s.dropWhile isWhiteSpace

/-- The method `String.prototype.trimEnd`. -/
def trimEnd (s : JSString) : JSString :=
  (s.reverse.dropWhile isWhiteSpace).reverse

/-- The method `String.prototype.trim`: white space removed from both ends. -/
def trim (s : JSString) : JSString :=
  trimEnd (trimStart s)

/-! ## The regular expression of `isValidEmail` -/

/-- A pattern matching one code unit. -/
inductive Atom where
  /-- A literal code unit, as `@` or `\.`. -/
  | lit (c : CodeUnit)
  /-- The negated class `[^\s@]`: neither white space nor `@`. -/
  | notSpaceAt
  deriving DecidableEq, Repr

/-- Does the atom accept the code unit. -/
def Atom.test : Atom → CodeUnit → Bool
  | .lit c, x => x == c
  | .notSpaceAt, x => !(isWhiteSpace x || x == atSign)

/-- One term of the pattern: an atom, or an atom under `+`. -/
inductive Item where
  | one (a : Atom)
  | plus (a : Atom)
  deriving DecidableEq, Repr

/-- Backtracking match of a sequence of terms anchored at both ends (`^…$`):
a `+` term takes one accepted code unit and then either goes on taking or hands
over to the rest of the pattern. -/
def matchItems : List Item → JSString → Bool
  | [], [] => true
  | [], _ :: _ => false
  | _ :: _, [] => false
  | .one a :: rest, x :: s => a.test x && matchItems rest s
  | .plus a :: rest, x :: s =>
      a.test x && (matchItems (.plus a :: rest) s || matchItems rest s)

/-- The pattern `/^[^\s@]+@[^\s@]+\.[^\s@]+$/`. -/
def emailRegex : List Item :=
  [.plus .notSpaceAt, .one (.lit atSign), .plus .notSpaceAt, .one (.lit dot), .plus .notSpaceAt]

/-- The function `isValidEmail(email)`: `emailRegex.test(email)`. -/
def isValidEmail (email : JSString) : Bool :=
  matchItems emailRegex email

/-- Every code unit of the string is accepted by `[^\s@]`. -/
def AllNotSpaceAt (s : JSString) : Prop :=
  ∀ x ∈ s, Atom.test .notSpaceAt x = true

/-! ## The notification toast -/

/-- An element of the page that `querySelector('.notification')` may meet: its
identity, its class list and its text. -/
structure Toast where
  id : Nat
  classList : List String
  textContent : String
  deriving DecidableEq, Repr

/-- The two callbacks `showNotification` hands to `setTimeout`. -/
inductive TimerKind where
  /-- After 10: `notification.classList.add('show')`. -/
  | showTimer
  /-- After 4000: drop `show` and wait for `transitionend`. -/
  | hideTimer
  deriving DecidableEq, Repr

/-- A pending timer of `showNotification`, closed over its `notification`. -/
structure Timer where
  kind : TimerKind
  target : Nat
  delay : Nat
  deriving DecidableEq, Repr

/-- The part of the page the toast code reads and writes.  Elements that have
been removed from the page are dropped: nothing attaches them again. -/
structure Toasts where
  /-- The elements attached to the page, in document order. -/
  body : List Toast
  /-- The timers that have been set and have not fired. -/
  timers : List Timer
  /-- The elements carrying a pending `transitionend` listener (`once`). -/
  listeners : List Nat
  /-- The identity the next created element gets. -/
  nextId : Nat
  deriving DecidableEq, Repr

/-- The call `classList.contains(c)`. -/
def hasClass (c : String) (t : Toast) : Bool :=
  t.classList.contains c

/-- The call `classList.add(c)`. -/
def classAdd (c : String) (l : List String) : List String :=
  if l.contains c then l else l ++ [c]

/-- The call `classList.remove(c)`. -/
def classRemove (c : String) (l : List String) : List String :=
  l.filter (fun x => x != c)

/-- The call `document.querySelector('.' + c)`: the first element with the class. -/
def querySelector (c : String) (body : List Toast) : Option Toast :=
  body.find? (hasClass c)

/-- The call `element.remove()`: the element leaves the page (nothing happens when it is
not attached). -/
def removeElement (id : Nat) (body : List Toast) : List Toast :=
  body.filter (fun t => t.id != id)

/-- Apply a change of class list to the element with the given identity. -/
def updateClassList (id : Nat) (f : List String → List String) (body : List Toast) :
    List Toast :=
  body.map (fun t => if t.id == id then { t with classList := f t.classList } else t)

/-- The function `showNotification(message, type)`; `type` is one class token (the script
passes `'error'` and `'success'`). -/
def showNotification (message type : String) (s : Toasts) : Toasts :=
  let body :=
    match querySelector "notification" s.body with
    | some existingNotification => removeElement existingNotification.id s.body
    | none => s.body
  let notification : Toast :=
    { id := s.nextId,
      classList := ["notification", "notification-" ++ type],
      textContent := message }
  { body := body ++ [notification],
    timers := s.timers ++ [⟨.showTimer, s.nextId, 10⟩, ⟨.hideTimer, s.nextId, 4000⟩],
    listeners := s.listeners,
    nextId := s.nextId + 1 }

/-- The `k`-th pending timer fires (nothing happens when there is none). -/
def fireTimer (k : Nat) (s : Toasts) : Toasts :=
  match s.timers.get? k with
  | none => s
  | some t =>
    match t.kind with
    | .showTimer =>
      { s with
        timers := s.timers.eraseIdx k,
        body := updateClassList t.target (classAdd "show") s.body }
    | .hideTimer =>
      { s with
        timers := s.timers.eraseIdx k,
        body := updateClassList t.target (classRemove "show") s.body,
        listeners := s.listeners ++ [t.target] }

/-- A `transitionend` event on the element `id`: a pending listener runs once
and removes the element. -/
def transitionEnd (id : Nat) (s : Toasts) : Toasts :=
  if s.listeners.contains id then
    { s with
      listeners := s.listeners.filter (fun x => x != id),
      body := removeElement id s.body }
  else s

/-- What can happen to the toast: a call of `showNotification`, a timer
firing, a `transitionend` event. -/
inductive ToastAction where
  | notify (message type : String)
  | timer (k : Nat)
  | transitionEnd (id : Nat)
  deriving DecidableEq, Repr

/-- One action. -/
def toastStep (s : Toasts) : ToastAction → Toasts
  | .notify message type => showNotification message type s
  | .timer k => fireTimer k s
  | .transitionEnd id => transitionEnd id s

/-- A sequence of actions, in order. -/
def toastRun (acts : List ToastAction) (s : Toasts) : Toasts :=
  acts.foldl toastStep s

/-- The number of attached elements with class `notification`. -/
def notificationCount (s : Toasts) : Nat :=
  (s.body.filter (hasClass "notification")).length

/-! ## The page -/

/-- The two style properties of the navbar the scroll listener writes. -/
structure NavbarStyle where
  background : String
  boxShadow : String
  deriving DecidableEq, Repr

/-- A form control: its current value and the value `form.reset()` restores. -/
structure Input where
  value : JSString
  defaultValue : JSString
  deriving DecidableEq, Repr

/-- The page as the script sees it.  An element the page does not have is
`none`: `querySelector` and `getElementById` return `null` for it. -/
structure Page where
  /-- The `.hamburger` control: does its class list hold `active`. -/
  hamburger : Option Bool
  /-- The `.nav-menu` element: does its class list hold `active`. -/
  navMenu : Option Bool
  /-- The `.navbar` element. -/
  navbar : Option NavbarStyle
  /-- The controls with ids `name`, `email`, `phone`, `date`, `message`. -/
  nameInput : Option Input
  emailInput : Option Input
  phoneInput : Option Input
  dateInput : Option Input
  messageInput : Option Input
  toasts : Toasts
  deriving DecidableEq, Repr

/-- How a listener ends: the page it leaves, and whether it ended by an uncaught
`TypeError` (reading a property of `null`); the page is then as the statements
before the throw left it. -/
structure Outcome where
  page : Page
  threw : Bool
  deriving DecidableEq, Repr

/-- Run the next listener on the page the previous one left; an error in one
listener does not keep the next from running. -/
def Outcome.andThen (o : Outcome) (f : Page → Outcome) : Outcome :=
  ⟨(f o.page).page, o.threw || (f o.page).threw⟩

/-! ### The contact form -/

/-- The record the submit listener collects. -/
structure FormData where
  name : JSString
  email : JSString
  phone : JSString
  date : JSString
  message : JSString
  deriving DecidableEq, Repr

/-- The call `form.reset()`: every control of the form goes back to its default
value.  The controls of `#contactForm` are the five the submit listener reads. -/
def formReset (p : Page) : Page :=
  let reset : Input → Input := fun i => { i with value := i.defaultValue }
  { p with
    nameInput := p.nameInput.map reset,
    emailInput := p.emailInput.map reset,
    phoneInput := p.phoneInput.map reset,
    dateInput := p.dateInput.map reset,
    messageInput := p.messageInput.map reset }

/-- The text of the missing-fields toast. -/
def requiredMessage : String := "Please fill in all required fields."

/-- The text of the invalid-email toast. -/
def invalidEmailMessage : String := "Please enter a valid email address."

/-- The text of the success toast. -/
def successMessage : String :=
  "Thank you! We've received your inquiry and will be in touch within 24 hours."

/-- The page with the toast part replaced. -/
def Page.notify (message type : String) (p : Page) : Page :=
  { p with toasts := showNotification message type p.toasts }

/-- The `submit` listener of `#contactForm`. -/
def submitListener (p : Page) : Outcome :=
  match p.nameInput, p.emailInput, p.phoneInput, p.dateInput, p.messageInput with
  | some n, some e, some ph, some d, some m =>
    let formData : FormData :=
      { name := trim n.value,
        email := trim e.value,
        phone := trim ph.value,
        date := d.value,
        message := trim m.value }
    if formData.name.isEmpty || formData.email.isEmpty || formData.message.isEmpty then
      ⟨p.notify requiredMessage "error", false⟩
    else if !isValidEmail formData.email then
      ⟨p.notify invalidEmailMessage "error", false⟩
    else
      ⟨formReset (p.notify successMessage "success"), false⟩
  | _, _, _, _, _ => ⟨p, true⟩

/-! ### The mobile menu -/

/-- Where a click lands.  `inMenu` says whether the target lies inside the
`.nav-menu` element.  The hamburger and the nav links are taken not to contain
one another, so a target lies in at most one of them. -/
inductive ClickTarget where
  /-- Inside the `.hamburger` control. -/
  | toggle (inMenu : Bool)
  /-- Inside a `.nav-link` element. -/
  | navLink (inMenu : Bool)
  /-- Anywhere else. -/
  | other (inMenu : Bool)
  deriving DecidableEq, Repr

/-- The value of `navMenu.contains(event.target)`. -/
def ClickTarget.inNavMenu : ClickTarget → Bool
  | .toggle b => b
  | .navLink b => b
  | .other b => b

/-- The value of `hamburger.contains(event.target)`. -/
def ClickTarget.inHamburger : ClickTarget → Bool
  | .toggle _ => true
  | _ => false

/-- The click listener of the hamburger; `hamburger?.addEventListener` registers
nothing when the control is absent. -/
def toggleListener (p : Page) : Outcome :=
  match p.hamburger with
  | none => ⟨p, false⟩
  | some h =>
    match p.navMenu with
    | none => ⟨{ p with hamburger := some (!h) }, true⟩
    | some m => ⟨{ p with hamburger := some (!h), navMenu := some (!m) }, false⟩

/-- The two `classList.remove('active')` statements shared by the nav-link
listener and the document click listener. -/
def closeMenu (p : Page) : Outcome :=
  match p.hamburger with
  | none => ⟨p, true⟩
  | some _ =>
    match p.navMenu with
    | none => ⟨{ p with hamburger := some false }, true⟩
    | some _ => ⟨{ p with hamburger := some false, navMenu := some false }, false⟩

/-- The click listener of every `.nav-link`. -/
def navLinkListener (p : Page) : Outcome :=
  closeMenu p

/-- The click listener of the document. -/
def documentClickListener (t : ClickTarget) (p : Page) : Outcome :=
  let isClickInside :=
    (p.navMenu.isSome && t.inNavMenu) || (p.hamburger.isSome && t.inHamburger)
  if !isClickInside && p.navMenu == some true then closeMenu p else ⟨p, false⟩

/-- The `keydown` listener of the document. -/
def keydownListener (key : String) (p : Page) : Outcome :=
  if key == "Escape" then
    if p.navMenu == some true then
      ⟨{ p with hamburger := p.hamburger.map (fun _ => false), navMenu := some false }, false⟩
    else ⟨p, false⟩
  else ⟨p, false⟩

/-- The `scroll` listener of the window. -/
def scrollListener (scrollY : Int) (p : Page) : Outcome :=
  match p.navbar with
  | none => ⟨p, true⟩
  | some navbar =>
    if scrollY > 100 then
      let styled : NavbarStyle :=
        { navbar with
          background := "rgba(255, 255, 255, 0.98)",
          boxShadow := "0 4px 20px rgba(61, 61, 61, 0.1)" }
      ⟨{ p with navbar := some styled }, false⟩
    else
      let styled : NavbarStyle :=
        { navbar with
          background := "rgba(255, 255, 255, 0.95)",
          boxShadow := "0 4px 15px rgba(61, 61, 61, 0.08)" }
      ⟨{ p with navbar := some styled }, false⟩

/-- One click: the listener of the element the target lies in, then the
listener of the document. -/
def click (t : ClickTarget) (p : Page) : Outcome :=
  let first : Outcome :=
    match t with
    | .toggle _ => toggleListener p
    | .navLink _ => navLinkListener p
    | .other _ => ⟨p, false⟩
  first.andThen (documentClickListener t)

/-- A sequence of clicks. -/
def clicks (ts : List ClickTarget) (p : Page) : Outcome :=
  ts.foldl (fun o t => o.andThen (click t)) ⟨p, false⟩

/-- The menu state: both elements are present and carry `active`. -/
def menuOpen (p : Page) : Bool :=
  p.hamburger == some true && p.navMenu == some true

/-- The menu state: both elements are present and neither carries `active`. -/
def menuClosed (p : Page) : Bool :=
  p.hamburger == some false && p.navMenu == some false

/-! ## The reveal animation -/

/-- The inline style properties `initObserverAnimations` writes. -/
structure Style where
  opacity : String
  transform : String
  transition : String
  deriving DecidableEq, Repr

/-- The elements of the page, by identity: their inline style, and whether the
observer watches them. -/
structure RevealState where
  style : Nat → Style
  observed : Nat → Bool

/-- An `IntersectionObserverEntry`. -/
structure Entry where
  target : Nat
  isIntersecting : Bool
  deriving DecidableEq, Repr

/-- The body of `entries.forEach` in the observer callback. -/
def revealEntry (s : RevealState) (entry : Entry) : RevealState :=
  if entry.isIntersecting then
    { style := Function.update s.style entry.target
        { s.style entry.target with opacity := "1", transform := "translateY(0)" },
      observed := Function.update s.observed entry.target false }
  else s

/-- The callback given to `new IntersectionObserver`. -/
def observerCallback (entries : List Entry) (s : RevealState) : RevealState :=
  entries.foldl revealEntry s

/-- The body of `elementsToAnimate.forEach`. -/
def hideElement (s : RevealState) (element : Nat) : RevealState :=
  { style := Function.update s.style element
      { s.style element with
        opacity := "0",
        transform := "translateY(20px)",
        transition := "opacity 0.6s ease-out, transform 0.6s ease-out" },
    observed := Function.update s.observed element true }

/-- The function `initObserverAnimations()`, given the elements the selector list finds. -/
def initObserverAnimations (elementsToAnimate : List Nat) (s : RevealState) : RevealState :=
  elementsToAnimate.foldl hideElement s

/-- A sequence of observer callbacks, in order. -/
def runCallbacks (callbacks : List (List Entry)) (s : RevealState) : RevealState :=
  callbacks.foldl (fun s entries => observerCallback entries s) s

/-! ## `debounce` -/

/-- A pending `later` closure: the timer identity `setTimeout` returned, the
time it is due, and the arguments it closes over. -/
structure Pending (α : Type) where
  id : Nat
  due : Nat
  args : α

/-- The state of one `debounce(func, wait)` closure on a virtual clock. -/
structure Debounced (α : Type) where
  /-- The current time. -/
  now : Nat
  /-- The variable `timeout`. -/
  timeout : Option Nat
  /-- The timers that are set and have neither fired nor been cleared. -/
  pending : List (Pending α)
  /-- The identity the next `setTimeout` returns. -/
  nextId : Nat
  /-- The calls of `func` so far, oldest first: when, and with which arguments. -/
  invoked : List (Nat × α)

/-- The call `debounce(func, wait)` made at time `now`: `timeout` is undefined and no
timer is set. -/
def debounce {α : Type} (now : Nat) : Debounced α :=
  { now := now, timeout := none, pending := [], nextId := 0, invoked := [] }

/-- The call `clearTimeout(timeout)`. -/
def clearTimeout {α : Type} (timeout : Option Nat) (pending : List (Pending α)) :
    List (Pending α) :=
  match timeout with
  | none => pending
  | some i => pending.filter (fun t => t.id != i)

/-- The function `executedFunction(...args)` that `debounce` returns. -/
def executedFunction {α : Type} (wait : Nat) (args : α) (s : Debounced α) : Debounced α :=
  { s with
    pending := clearTimeout s.timeout s.pending ++ [⟨s.nextId, s.now + wait, args⟩],
    timeout := some s.nextId,
    nextId := s.nextId + 1 }

/-- The callback `later` of the timer `t`, run at the current time. -/
def later {α : Type} (t : Pending α) (s : Debounced α) : Debounced α :=
  { s with
    pending := clearTimeout s.timeout s.pending,
    invoked := s.invoked ++ [(s.now, t.args)] }

/-- The pending timer to fire next when the clock moves to `t`: the earliest
one due by then, the first set among equals. -/
def nextDue {α : Type} (t : Nat) (pending : List (Pending α)) : Option (Pending α) :=
  (pending.filter (fun x => x.due ≤ t)).foldl
    (fun best x =>
      match best with
      | none => some x
      | some b => if x.due < b.due then some x else some b)
    none

/-- Fire the timers due by `t`, each at its due time; `later` sets no timer, so
the number of pending timers bounds the number of rounds. -/
def fireDue {α : Type} : Nat → Nat → Debounced α → Debounced α
  | 0, _, s => s
  | fuel + 1, t, s =>
    match nextDue t s.pending with
    | none => s
    | some x =>
      fireDue fuel t
        (later x { s with now := x.due, pending := s.pending.filter (fun y => y.id != x.id) })

/-- The clock moves forward by `d`: the timers due by then fire, each at its
due time. -/
def elapse {α : Type} (d : Nat) (s : Debounced α) : Debounced α :=
  { fireDue s.pending.length (s.now + d) s with now := s.now + d }

/-- A call of the debounced function, `c.1` time units after the previous
event, with the arguments `c.2`. -/
def callAfter {α : Type} (wait : Nat) (s : Debounced α) (c : Nat × α) : Debounced α :=
  executedFunction wait c.2 (elapse c.1 s)

/-- A sequence of calls, each given with the time since the one before. -/
def runCalls {α : Type} (wait : Nat) (calls : List (Nat × α)) (s : Debounced α) :
    Debounced α :=
  calls.foldl (callAfter wait) s

/-! ## Sample pages -/

/-- A page on which no toast has been shown. -/
def noToasts : Toasts :=
  { body := [], timers := [], listeners := [], nextId := 0 }

/-- A complete page with the menu closed and the given form values. -/
def samplePage (name email message : String) : Page :=
  { hamburger := some false,
    navMenu := some false,
    navbar := some ⟨"", ""⟩,
    nameInput := some ⟨utf16 name, []⟩,
    emailInput := some ⟨utf16 email, []⟩,
    phoneInput := some ⟨utf16 "555 0100", []⟩,
    dateInput := some ⟨utf16 "2025-06-01", []⟩,
    messageInput := some ⟨utf16 message, []⟩,
    toasts := noToasts }

/-- The sample page with the menu open. -/
def openPage : Page :=
  { samplePage "Ann" "ann@example.com" "Hello" with
    hamburger := some true, navMenu := some true }

/-- A page with an open nav menu and no hamburger control. -/
def noHamburgerPage : Page :=
  { openPage with hamburger := none }

/-- The open sample page without the navbar. -/
def noNavbarPage : Page :=
  { openPage with navbar := none }

/-- The open sample page without the control with id `name`. -/
def noNameInputPage : Page :=
  { openPage with nameInput := none }

/-- Elements without inline style that no observer watches. -/
def plainStyles : RevealState :=
  { style := fun _ => ⟨"", "", ""⟩, observed := fun _ => false }

/-- The debounced function is armed: the one pending timer is the one `timeout`
names, it is due `wait` after the current time and carries `a`, and `func` has
not been called. -/
def Armed {α : Type} (wait : Nat) (a : α) (s : Debounced α) : Prop :=
  ∃ id, s.timeout = some id ∧ s.pending = [⟨id, s.now + wait, a⟩] ∧ s.invoked = []

/-! # Properties -/

/-! ### What the pattern accepts -/

theorem matchItems_nil (s : JSString) : matchItems [] s = true ↔ s = [] := by
  cases s <;> simp [matchItems]

theorem matchItems_one (a : Atom) (rest : List Item) (s : JSString) :
    matchItems (.one a :: rest) s = true ↔
      ∃ x y, s = x :: y ∧ a.test x = true ∧ matchItems rest y = true := by
  cases s with
  | nil => simp [matchItems]
  | cons x s =>
    simp only [matchItems, Bool.and_eq_true, List.cons.injEq]
    constructor
    · rintro ⟨h1, h2⟩
      exact ⟨x, s, ⟨rfl, rfl⟩, h1, h2⟩
    · rintro ⟨_, _, ⟨rfl, rfl⟩, h1, h2⟩
      exact ⟨h1, h2⟩

theorem matchItems_plus (a : Atom) (rest : List Item) (s : JSString) :
    matchItems (.plus a :: rest) s = true ↔
      ∃ x y, s = x ++ y ∧ x ≠ [] ∧ (∀ c ∈ x, a.test c = true) ∧ matchItems rest y = true := by
  induction s with
  | nil =>
    constructor
    · intro h
      simp [matchItems] at h
    · rintro ⟨x, y, hxy, hx, -, -⟩
      cases x with
      | nil => exact absurd rfl hx
      | cons c x => simp at hxy
  | cons c s ih =>
    constructor
    · intro h
      simp only [matchItems, Bool.and_eq_true, Bool.or_eq_true] at h
      obtain ⟨hc, h | h⟩ := h
      · obtain ⟨x, y, hxy, -, hall, hy⟩ := ih.mp h
        refine ⟨c :: x, y, by simp [hxy], by simp, ?_, hy⟩
        intro d hd
        rcases List.mem_cons.mp hd with rfl | hd
        · exact hc
        · exact hall d hd
      · exact ⟨[c], s, rfl, by simp, by simpa using hc, h⟩
    · rintro ⟨x, y, hxy, hx, hall, hy⟩
      cases x with
      | nil => exact absurd rfl hx
      | cons d x =>
        simp only [List.cons_append, List.cons.injEq] at hxy
        obtain ⟨rfl, rfl⟩ := hxy
        simp only [matchItems, Bool.and_eq_true, Bool.or_eq_true]
        refine ⟨hall c (List.mem_cons_self _ _), ?_⟩
        cases x with
        | nil => right; simpa using hy
        | cons e x =>
          left
          exact ih.mpr ⟨e :: x, y, rfl, by simp, fun d hd => hall d (List.mem_cons_of_mem _ hd), hy⟩

/-- The strings the e-mail pattern accepts: three non-empty runs of `[^\s@]`
joined by an `@` and a `.`. -/
theorem isValidEmail_iff_split (e : JSString) :
    isValidEmail e = true ↔
      ∃ a b c, e = a ++ atSign :: (b ++ dot :: c) ∧ a ≠ [] ∧ b ≠ [] ∧ c ≠ [] ∧
        AllNotSpaceAt a ∧ AllNotSpaceAt b ∧ AllNotSpaceAt c := by
  unfold isValidEmail emailRegex
  constructor
  · intro h
    obtain ⟨a, r1, h1, ha, haa, h⟩ := (matchItems_plus _ _ _).mp h
    obtain ⟨x, r2, h2, hx, h⟩ := (matchItems_one _ _ _).mp h
    obtain ⟨b, r3, h3, hb, hbb, h⟩ := (matchItems_plus _ _ _).mp h
    obtain ⟨y, r4, h4, hy, h⟩ := (matchItems_one _ _ _).mp h
    obtain ⟨c, r5, h5, hc, hcc, h⟩ := (matchItems_plus _ _ _).mp h
    have h6 := (matchItems_nil _).mp h
    simp only [Atom.test, beq_iff_eq] at hx hy
    subst h6 h5 h4 h3 h2 h1 hx hy
    exact ⟨a, b, c, by simp, ha, hb, hc, haa, hbb, hcc⟩
  · rintro ⟨a, b, c, rfl, ha, hb, hc, haa, hbb, hcc⟩
    refine (matchItems_plus _ _ _).mpr ⟨a, _, rfl, ha, haa, ?_⟩
    refine (matchItems_one _ _ _).mpr ⟨atSign, _, rfl, by simp [Atom.test], ?_⟩
    refine (matchItems_plus _ _ _).mpr ⟨b, _, rfl, hb, hbb, ?_⟩
    refine (matchItems_one _ _ _).mpr ⟨dot, _, rfl, by simp [Atom.test], ?_⟩
    refine (matchItems_plus _ _ _).mpr ⟨c, [], by simp, hc, hcc, ?_⟩
    exact (matchItems_nil _).mpr rfl

/-! ## The e-mail format -/

theorem not_isWhiteSpace_of_test {x : CodeUnit} (h : Atom.test .notSpaceAt x = true) :
    isWhiteSpace x = false ∧ x ≠ atSign := by
  simp only [Atom.test, Bool.not_eq_true', Bool.or_eq_false_iff, beq_eq_false_iff_ne] at h
  exact ⟨h.1, h.2⟩

theorem test_of_not_isWhiteSpace {x : CodeUnit} (h1 : isWhiteSpace x = false)
    (h2 : x ≠ atSign) : Atom.test .notSpaceAt x = true := by
  simp [Atom.test, h1, h2]

theorem AllNotSpaceAt.count_atSign {s : JSString} (h : AllNotSpaceAt s) :
    s.count atSign = 0 := by
  rw [List.count_eq_zero]
  intro hmem
  exact (not_isWhiteSpace_of_test (h _ hmem)).2 rfl

/-- C4. `isValidEmail(e)` is true exactly when `e` has no white space, exactly
one `@`, a non-empty part before the `@`, and after the `@` a `.` with at least
one code unit before it and at least one after it. -/
theorem isValidEmail_iff_shape (e : JSString) :
    isValidEmail e = true ↔
      (∀ x ∈ e, isWhiteSpace x = false) ∧ e.count atSign = 1 ∧
        ∃ l d, e = l ++ atSign :: d ∧ l ≠ [] ∧
          ∃ b c, d = b ++ dot :: c ∧ b ≠ [] ∧ c ≠ [] := by
  rw [isValidEmail_iff_split]
  constructor
  · rintro ⟨a, b, c, rfl, ha, hb, hc, haa, hbb, hcc⟩
    refine ⟨?_, ?_, a, b ++ dot :: c, rfl, ha, b, c, rfl, hb, hc⟩
    · intro x hx
      simp only [List.mem_append, List.mem_cons] at hx
      rcases hx with hx | rfl | hx | rfl | hx
      · exact (not_isWhiteSpace_of_test (haa x hx)).1
      · decide
      · exact (not_isWhiteSpace_of_test (hbb x hx)).1
      · decide
      · exact (not_isWhiteSpace_of_test (hcc x hx)).1
    · have hd : (dot == atSign) = false := by decide
      simp [List.count_append, List.count_cons, haa.count_atSign, hbb.count_atSign,
        hcc.count_atSign, hd]
  · rintro ⟨hws, hcount, l, d, rfl, hl, b, c, rfl, hb, hc⟩
    have hd : (dot == atSign) = false := by decide
    simp only [List.count_append, List.count_cons, beq_self_eq_true, hd, if_true,
      Bool.false_eq_true, if_false] at hcount
    have hl0 : l.count atSign = 0 := by omega
    have hb0 : b.count atSign = 0 := by omega
    have hc0 : c.count atSign = 0 := by omega
    rw [List.count_eq_zero] at hl0 hb0 hc0
    refine ⟨l, b, c, rfl, hl, hb, hc, ?_, ?_, ?_⟩
    · intro x hx
      exact test_of_not_isWhiteSpace (hws x (by simp [hx])) (fun h => hl0 (h ▸ hx))
    · intro x hx
      exact test_of_not_isWhiteSpace (hws x (by simp [hx])) (fun h => hb0 (h ▸ hx))
    · intro x hx
      exact test_of_not_isWhiteSpace (hws x (by simp [hx])) (fun h => hc0 (h ▸ hx))

/-! ## `trim` -/

/-- What `trim` removes is white space on both sides. -/
theorem trim_decomp (s : JSString) :
    ∃ l r, s = l ++ trim s ++ r ∧ (∀ x ∈ l, isWhiteSpace x = true) ∧
      (∀ x ∈ r, isWhiteSpace x = true) := by
  refine ⟨s.takeWhile isWhiteSpace,
    ((s.dropWhile isWhiteSpace).reverse.takeWhile isWhiteSpace).reverse, ?_, ?_, ?_⟩
  · have h1 : s = s.takeWhile isWhiteSpace ++ s.dropWhile isWhiteSpace :=
      (List.takeWhile_append_dropWhile _ _).symm
    have h2 : (s.dropWhile isWhiteSpace).reverse =
        (s.dropWhile isWhiteSpace).reverse.takeWhile isWhiteSpace ++
          (s.dropWhile isWhiteSpace).reverse.dropWhile isWhiteSpace :=
      (List.takeWhile_append_dropWhile _ _).symm
    have h3 : s.dropWhile isWhiteSpace =
        ((s.dropWhile isWhiteSpace).reverse.dropWhile isWhiteSpace).reverse ++
          ((s.dropWhile isWhiteSpace).reverse.takeWhile isWhiteSpace).reverse := by
      rw [← List.reverse_append, ← h2, List.reverse_reverse]
    unfold trim trimEnd trimStart
    rw [List.append_assoc, ← h3]
    exact h1
  · intro x hx
    exact List.mem_takeWhile_imp hx
  · intro x hx
    exact List.mem_takeWhile_imp (List.mem_reverse.mp hx)

/-- A string splits in one way only around an `@` with none after it and none
before it. -/
theorem split_unique {x y x1 y1 : JSString} (h : x ++ atSign :: y = x1 ++ atSign :: y1)
    (hx1 : atSign ∉ x1) (hy1 : atSign ∉ y1) : x = x1 ∧ y = y1 := by
  induction x1 generalizing x with
  | nil =>
    cases x with
    | nil => simpa using h
    | cons c t =>
      simp only [List.cons_append, List.nil_append, List.cons.injEq] at h
      exact absurd (h.2 ▸ (by simp : atSign ∈ t ++ atSign :: y)) hy1
  | cons c1 t1 ih =>
    cases x with
    | nil =>
      simp only [List.cons_append, List.nil_append, List.cons.injEq] at h
      exact absurd (h.1 ▸ List.mem_cons_self _ _) hx1
    | cons c t =>
      simp only [List.cons_append, List.cons.injEq] at h
      obtain ⟨rfl, h⟩ := h
      obtain ⟨rfl, rfl⟩ := ih h (fun hm => hx1 (List.mem_cons_of_mem _ hm))
      exact ⟨rfl, rfl⟩

/-- An e-mail value with no `@`, or with an `@` that no `.` follows, is rejected
after trimming. -/
theorem isValidEmail_trim_eq_false (v : JSString)
    (h : atSign ∉ v ∨ ∃ a b, v = a ++ atSign :: b ∧ dot ∉ b) :
    isValidEmail (trim v) = false := by
  rw [Bool.eq_false_iff]
  intro hv
  obtain ⟨a, b, c, habc, -, -, -, haa, hbb, hcc⟩ := (isValidEmail_iff_split _).mp hv
  obtain ⟨l, r, hlr, hl, hr⟩ := trim_decomp v
  rw [habc] at hlr
  have hsplit : v = (l ++ a) ++ atSign :: (b ++ dot :: c ++ r) := by
    rw [hlr]; simp
  have hnot : ∀ x, isWhiteSpace x = true → x ≠ atSign := by
    intro x hx hxa
    rw [hxa] at hx
    exact absurd hx (by decide)
  rcases h with h | ⟨x, y, hxy, hdot⟩
  · apply h
    rw [hsplit]
    simp
  · have hla : atSign ∉ l ++ a := by
      intro hm
      rcases List.mem_append.mp hm with hm | hm
      · exact hnot _ (hl _ hm) rfl
      · exact (not_isWhiteSpace_of_test (haa _ hm)).2 rfl
    have hbcr : atSign ∉ b ++ dot :: c ++ r := by
      intro hm
      simp only [List.mem_append, List.mem_cons] at hm
      rcases hm with (hm | hm | hm) | hm
      · exact (not_isWhiteSpace_of_test (hbb _ hm)).2 rfl
      · exact absurd hm (by decide)
      · exact (not_isWhiteSpace_of_test (hcc _ hm)).2 rfl
      · exact hnot _ (hr _ hm) rfl
    obtain ⟨-, rfl⟩ := split_unique (hxy.symm.trans hsplit) hla hbcr
    exact hdot (by simp)

/-! ## The contact form -/

theorem mem_showNotification_body (message type : String) (s : Toasts) :
    (⟨s.nextId, ["notification", "notification-" ++ type], message⟩ : Toast) ∈
      (showNotification message type s).body := by
  simp [showNotification]

/-- C1. When the trimmed name, e-mail or message is empty, whatever the other
fields hold, the submit listener ends normally, shows the error toast
`Please fill in all required fields.` and changes nothing else on the page: the
form controls keep their values. -/
theorem submit_missing_field (p : Page) (n e ph d m : Input)
    (hn : p.nameInput = some n) (he : p.emailInput = some e) (hph : p.phoneInput = some ph)
    (hd : p.dateInput = some d) (hm : p.messageInput = some m)
    (h : trim n.value = [] ∨ trim e.value = [] ∨ trim m.value = []) :
    submitListener p =
        ⟨{ p with toasts :=
            showNotification "Please fill in all required fields." "error" p.toasts }, false⟩ ∧
      (⟨p.toasts.nextId, ["notification", "notification-error"],
          "Please fill in all required fields."⟩ : Toast) ∈
        (submitListener p).page.toasts.body ∧
      (submitListener p).page.nameInput = some n ∧
      (submitListener p).page.emailInput = some e ∧
      (submitListener p).page.phoneInput = some ph ∧
      (submitListener p).page.dateInput = some d ∧
      (submitListener p).page.messageInput = some m := by
  have key : submitListener p = ⟨p.notify requiredMessage "error", false⟩ := by
    unfold submitListener
    rw [hn, he, hph, hd, hm]
    have : ((trim n.value).isEmpty || (trim e.value).isEmpty || (trim m.value).isEmpty)
        = true := by
      rcases h with h | h | h <;> simp [h]
    simp only [this, if_true]
  rw [key]
  refine ⟨rfl, ?_, hn, he, hph, hd, hm⟩
  exact mem_showNotification_body _ "error" _

/-- C2. When the trimmed name, e-mail and message are non-empty and the trimmed
e-mail passes `isValidEmail`, whatever phone and date hold, the submit listener
ends normally, shows a toast of type `success` and resets the form: every
control is back at its default value. -/
theorem submit_success (p : Page) (n e ph d m : Input)
    (hn : p.nameInput = some n) (he : p.emailInput = some e) (hph : p.phoneInput = some ph)
    (hd : p.dateInput = some d) (hm : p.messageInput = some m)
    (h1 : trim n.value ≠ []) (h2 : trim e.value ≠ []) (h3 : trim m.value ≠ [])
    (hv : isValidEmail (trim e.value) = true) :
    (submitListener p).threw = false ∧
      (submitListener p).page.toasts =
        showNotification
          "Thank you! We've received your inquiry and will be in touch within 24 hours."
          "success" p.toasts ∧
      (⟨p.toasts.nextId, ["notification", "notification-success"],
          "Thank you! We've received your inquiry and will be in touch within 24 hours."⟩ :
          Toast) ∈ (submitListener p).page.toasts.body ∧
      (submitListener p).page.nameInput = some ⟨n.defaultValue, n.defaultValue⟩ ∧
      (submitListener p).page.emailInput = some ⟨e.defaultValue, e.defaultValue⟩ ∧
      (submitListener p).page.phoneInput = some ⟨ph.defaultValue, ph.defaultValue⟩ ∧
      (submitListener p).page.dateInput = some ⟨d.defaultValue, d.defaultValue⟩ ∧
      (submitListener p).page.messageInput = some ⟨m.defaultValue, m.defaultValue⟩ := by
  have key : submitListener p = ⟨formReset (p.notify successMessage "success"), false⟩ := by
    unfold submitListener
    rw [hn, he, hph, hd, hm]
    have : ((trim n.value).isEmpty || (trim e.value).isEmpty || (trim m.value).isEmpty)
        = false := by
      simp [List.isEmpty_iff, h1, h2, h3]
    simp [this, hv]
  rw [key]
  refine ⟨rfl, rfl, ?_, ?_, ?_, ?_, ?_, ?_⟩
  · exact mem_showNotification_body _ "success" _
  all_goals simp [formReset, Page.notify, hn, he, hph, hd, hm]

/-- C3 (amended). When the trimmed name, e-mail and message are non-empty and
the e-mail value has no `@`, or has an `@` that no `.` follows, the submit
listener ends normally, shows the error toast
`Please enter a valid email address.` and changes nothing else on the page. -/
theorem submit_invalid_email (p : Page) (n e ph d m : Input)
    (hn : p.nameInput = some n) (he : p.emailInput = some e) (hph : p.phoneInput = some ph)
    (hd : p.dateInput = some d) (hm : p.messageInput = some m)
    (h1 : trim n.value ≠ []) (h2 : trim e.value ≠ []) (h3 : trim m.value ≠ [])
    (h : atSign ∉ e.value ∨ ∃ a b, e.value = a ++ atSign :: b ∧ dot ∉ b) :
    submitListener p =
        ⟨{ p with toasts :=
            showNotification "Please enter a valid email address." "error" p.toasts }, false⟩ ∧
      (⟨p.toasts.nextId, ["notification", "notification-error"],
          "Please enter a valid email address."⟩ : Toast) ∈
        (submitListener p).page.toasts.body := by
  have key : submitListener p = ⟨p.notify invalidEmailMessage "error", false⟩ := by
    unfold submitListener
    rw [hn, he, hph, hd, hm]
    have : ((trim n.value).isEmpty || (trim e.value).isEmpty || (trim m.value).isEmpty)
        = false := by
      simp [List.isEmpty_iff, h1, h2, h3]
    simp [this, isValidEmail_trim_eq_false _ h]
  rw [key]
  exact ⟨rfl, mem_showNotification_body _ "error" _⟩

theorem submit_missing_field_witness :
    (submitListener (samplePage "" "ann@example.com" "Hello")).page.nameInput =
      some ⟨[], []⟩ :=
  (submit_missing_field (samplePage "" "ann@example.com" "Hello") _ _ _ _ _
    rfl rfl rfl rfl rfl (Or.inl (by decide))).2.2.1

theorem submit_success_witness :
    (submitListener (samplePage "Ann" " ann@example.com " "Hello")).threw = false :=
  (submit_success (samplePage "Ann" " ann@example.com " "Hello") _ _ _ _ _
    rfl rfl rfl rfl rfl (by decide) (by decide) (by decide) (by decide)).1

theorem submit_invalid_email_witness :
    (⟨0, ["notification", "notification-error"], "Please enter a valid email address."⟩ :
        Toast) ∈ (submitListener (samplePage "Ann" "ann@example" "Hello")).page.toasts.body :=
  (submit_invalid_email (samplePage "Ann" "ann@example" "Hello") _ _ _ _ _
    rfl rfl rfl rfl rfl (by decide) (by decide) (by decide)
    (Or.inr ⟨utf16 "ann", utf16 "example", by decide, by decide⟩)).2

/-- C3 as stated fails: with an empty name and the e-mail value `bob`, which has
no `@`, the listener shows the missing-fields toast and no other. -/
theorem required_check_first_counterexample :
    atSign ∉ utf16 "bob" ∧
      (submitListener (samplePage "" "bob" "Hello")).page.toasts.body =
        [⟨0, ["notification", "notification-error"],
          "Please fill in all required fields."⟩] := by
  decide

/-! ## The mobile menu -/

theorem clicks_append (ts : List ClickTarget) (t : ClickTarget) (p : Page) :
    clicks (ts ++ [t]) p = (clicks ts p).andThen (click t) := by
  simp [clicks, List.foldl_append]

theorem click_toggle (p : Page) (b h m : Bool) (hh : p.hamburger = some h)
    (hm : p.navMenu = some m) :
    click (.toggle b) p = ⟨{ p with hamburger := some (!h), navMenu := some (!m) }, false⟩ := by
  simp [click, toggleListener, documentClickListener, Outcome.andThen, hh, hm,
    ClickTarget.inHamburger]

/-- C5. From the closed menu, a sequence of clicks on the toggle control ends
normally with the menu open when their number is odd and closed when it is
even, the rest of the page as it was; the document click listener, which runs
on each of these clicks, leaves every page with a hamburger as it is. -/
theorem toggle_parity (p : Page) (ms : List Bool) (h : menuClosed p = true) :
    clicks (ms.map ClickTarget.toggle) p =
        ⟨{ p with
            hamburger := some (decide (ms.length % 2 = 1)),
            navMenu := some (decide (ms.length % 2 = 1)) }, false⟩ ∧
      (ms.length % 2 = 1 → menuOpen (clicks (ms.map ClickTarget.toggle) p).page = true) ∧
      (ms.length % 2 = 0 → menuClosed (clicks (ms.map ClickTarget.toggle) p).page = true) ∧
      (∀ (b : Bool) (q : Page), q.hamburger ≠ none →
        documentClickListener (.toggle b) q = ⟨q, false⟩) := by
  have hp : p.hamburger = some false ∧ p.navMenu = some false := by
    simpa [menuClosed] using h
  have key : clicks (ms.map ClickTarget.toggle) p =
      ⟨{ p with
          hamburger := some (decide (ms.length % 2 = 1)),
          navMenu := some (decide (ms.length % 2 = 1)) }, false⟩ := by
    induction ms using List.reverseRecOn with
    | nil =>
      cases p
      simp only [] at hp
      simp [clicks, hp.1, hp.2]
    | append_singleton ms b ih =>
      rw [List.map_append, List.map_singleton, clicks_append, ih]
      simp only [Outcome.andThen]
      rw [click_toggle _ b _ _ rfl rfl]
      have hpar : (!(decide (ms.length % 2 = 1))) = decide ((ms ++ [b]).length % 2 = 1) := by
        rw [List.length_append, List.length_singleton]
        rcases Nat.mod_two_eq_zero_or_one ms.length with h0 | h1
        · have : (ms.length + 1) % 2 = 1 := by omega
          simp [h0, this]
        · have : (ms.length + 1) % 2 = 0 := by omega
          simp [h1, this]
      rw [hpar]
      rfl
  refine ⟨key, ?_, ?_, ?_⟩
  · intro hodd
    rw [key]
    simp [menuOpen, hodd]
  · intro heven
    rw [key]
    simp [menuClosed, heven]
  · intro b q hq
    cases hq' : q.hamburger with
    | none => exact absurd hq' hq
    | some x => simp [documentClickListener, ClickTarget.inHamburger, hq']

theorem toggle_parity_witness :
    menuOpen (clicks ([false, false, false].map ClickTarget.toggle)
      (samplePage "Ann" "ann@example.com" "Hello")).page = true :=
  (toggle_parity (samplePage "Ann" "ann@example.com" "Hello") [false, false, false]
    (by decide)).2.1 (by decide)

/-- C6 (amended). With the menu open, a click outside both the nav menu and the
toggle control, on a nav link or not, ends normally with the menu closed; a
click inside the nav menu that is neither on a nav link nor on the toggle
control leaves the page as it is, the menu open. -/
theorem click_outside_closes (p : Page) (h : menuOpen p = true) :
    click (.other false) p = ⟨{ p with hamburger := some false, navMenu := some false }, false⟩ ∧
      click (.navLink false) p =
        ⟨{ p with hamburger := some false, navMenu := some false }, false⟩ ∧
      menuClosed (click (.other false) p).page = true ∧
      menuClosed (click (.navLink false) p).page = true ∧
      click (.other true) p = ⟨p, false⟩ := by
  have hp : p.hamburger = some true ∧ p.navMenu = some true := by
    simpa [menuOpen] using h
  obtain ⟨hh, hm⟩ := hp
  simp [click, navLinkListener, closeMenu, documentClickListener, Outcome.andThen, hh, hm,
    ClickTarget.inHamburger, ClickTarget.inNavMenu, menuClosed]

theorem click_outside_closes_witness :
    menuClosed (click (.other false) openPage).page = true :=
  (click_outside_closes openPage (by decide)).2.2.1

/-- C6 as stated fails: with the menu open, a click on a nav link inside the nav
menu closes the menu. -/
theorem click_inside_counterexample :
    menuOpen openPage = true ∧ (ClickTarget.navLink true).inNavMenu = true ∧
      (click (.navLink true) openPage).threw = false ∧
      menuOpen (click (.navLink true) openPage).page = false ∧
      menuClosed (click (.navLink true) openPage).page = true := by
  decide

/-! ## Absent elements -/

/-- C8. The listeners do not all end normally when an element is absent.  On a
page without the hamburger whose nav menu carries `active`, the document click
listener, on a click outside the menu, and the nav-link listener end by a
`TypeError` and the nav menu keeps `active`, while the keydown listener, which
guards the same statement with `?.`, ends normally; without the navbar the
scroll listener ends by a `TypeError`, and without the control `name` the
submit listener does. -/
theorem absent_element_throws :
    noHamburgerPage.hamburger = none ∧
      documentClickListener (.other false) noHamburgerPage = ⟨noHamburgerPage, true⟩ ∧
      navLinkListener noHamburgerPage = ⟨noHamburgerPage, true⟩ ∧
      noHamburgerPage.navMenu = some true ∧
      keydownListener "Escape" noHamburgerPage =
        ⟨{ noHamburgerPage with navMenu := some false }, false⟩ ∧
      noNavbarPage.navbar = none ∧
      scrollListener 0 noNavbarPage = ⟨noNavbarPage, true⟩ ∧
      scrollListener 150 noNavbarPage = ⟨noNavbarPage, true⟩ ∧
      noNameInputPage.nameInput = none ∧
      submitListener noNameInputPage = ⟨noNameInputPage, true⟩ := by
  decide

/-- The keydown listener raises no error on any page; on a page without the nav
menu, the document click listener and the keydown listener end normally and
leave the page as it is. -/
theorem absent_navMenu_noop (p : Page) (t : ClickTarget) (key : String) :
    (keydownListener key p).threw = false ∧
      (p.navMenu = none →
        documentClickListener t p = ⟨p, false⟩ ∧ keydownListener key p = ⟨p, false⟩) := by
  constructor
  · unfold keydownListener
    split_ifs <;> rfl
  · intro h
    simp [documentClickListener, keydownListener, h]

/-- Without the navbar the scroll listener ends by a `TypeError`. -/
theorem scrollListener_absent_navbar (scrollY : Int) (p : Page) (h : p.navbar = none) :
    scrollListener scrollY p = ⟨p, true⟩ := by
  simp [scrollListener, h]

/-- Without the hamburger the nav-link listener ends by a `TypeError`, and so
does the document click listener on a click outside an open nav menu. -/
theorem closeMenu_absent_hamburger (p : Page) (h : p.hamburger = none) :
    navLinkListener p = ⟨p, true⟩ ∧
      (p.navMenu = some true → documentClickListener (.other false) p = ⟨p, true⟩) := by
  refine ⟨by simp [navLinkListener, closeMenu, h], fun hm => ?_⟩
  simp [documentClickListener, closeMenu, h, hm, ClickTarget.inNavMenu]

/-- Without one of the five controls the submit listener ends by a `TypeError`. -/
theorem submitListener_absent_input (p : Page)
    (h : p.nameInput = none ∨ p.emailInput = none ∨ p.phoneInput = none ∨
      p.dateInput = none ∨ p.messageInput = none) :
    submitListener p = ⟨p, true⟩ := by
  unfold submitListener
  rcases h with h | h | h | h | h <;> rw [h] <;>
    cases p.nameInput <;> cases p.emailInput <;> cases p.phoneInput <;>
    cases p.dateInput <;> cases p.messageInput <;> rfl

/-! ## The notification toast -/

theorem removeElement_filter_sublist (P : Toast → Bool) (id : Nat) (body : List Toast) :
    ((removeElement id body).filter P).Sublist (body.filter P) :=
  (List.filter_sublist body).filter P

theorem length_filter_removeElement_lt (P : Toast → Bool) (e : Toast) (body : List Toast)
    (he : e ∈ body) (hP : P e = true) :
    ((removeElement e.id body).filter P).length < (body.filter P).length := by
  have hsub := removeElement_filter_sublist P e.id body
  rcases Nat.lt_or_eq_of_le hsub.length_le with h | h
  · exact h
  · have heq := hsub.eq_of_length h
    have hmem : e ∈ (removeElement e.id body).filter P := by
      rw [heq]
      exact List.mem_filter.mpr ⟨he, hP⟩
    have := (List.mem_filter.mp (List.mem_filter.mp hmem).1).2
    simp at this

theorem contains_classAdd_show (l : List String) :
    (classAdd "show" l).contains "notification" = l.contains "notification" := by
  unfold classAdd
  split_ifs
  · rfl
  · have : ("notification" == "show") = false := by decide
    simp [this]

theorem contains_classRemove_show (l : List String) :
    (classRemove "show" l).contains "notification" = l.contains "notification" := by
  unfold classRemove
  have : ("notification" != "show") = true := by decide
  rw [Bool.eq_iff_iff]
  simp [List.mem_filter]

theorem filter_updateClassList (id : Nat) (f : List String → List String)
    (hf : ∀ l, (f l).contains "notification" = l.contains "notification")
    (body : List Toast) :
    ((updateClassList id f body).filter (hasClass "notification")).length =
      (body.filter (hasClass "notification")).length := by
  unfold updateClassList
  rw [List.filter_map, List.length_map]
  congr 1
  apply List.filter_congr
  intro t _
  simp only [Function.comp]
  split_ifs
  · simp only [hasClass, hf]
  · rfl

theorem notificationCount_showNotification (message type : String) (s : Toasts)
    (h : notificationCount s ≤ 1) :
    notificationCount (showNotification message type s) = 1 := by
  unfold notificationCount at h ⊢
  have hnew : hasClass "notification"
      (⟨s.nextId, ["notification", "notification-" ++ type], message⟩ : Toast) = true := by
    simp [hasClass]
  cases hq : querySelector "notification" s.body with
  | none =>
    have h0 : s.body.filter (hasClass "notification") = [] := by
      rw [List.filter_eq_nil_iff]
      intro t ht
      have := List.find?_eq_none.mp hq t ht
      simpa using this
    simp [showNotification, hq, List.filter_append, h0, hnew]
  | some e =>
    have hmem : e ∈ s.body := List.mem_of_find?_eq_some hq
    have hP : hasClass "notification" e = true := List.find?_some hq
    have hlt := length_filter_removeElement_lt (hasClass "notification") e s.body hmem hP
    have h0 : ((removeElement e.id s.body).filter (hasClass "notification")).length = 0 := by
      omega
    simp [showNotification, hq, List.filter_append, h0, hnew]

theorem notificationCount_fireTimer (k : Nat) (s : Toasts)
    (h : notificationCount s ≤ 1) : notificationCount (fireTimer k s) ≤ 1 := by
  unfold fireTimer
  cases s.timers.get? k with
  | none => exact h
  | some t =>
    cases hk : t.kind with
    | showTimer =>
      simp only [notificationCount, hk]
      rw [filter_updateClassList _ _ contains_classAdd_show]
      exact h
    | hideTimer =>
      simp only [notificationCount, hk]
      rw [filter_updateClassList _ _ contains_classRemove_show]
      exact h

theorem notificationCount_transitionEnd (id : Nat) (s : Toasts)
    (h : notificationCount s ≤ 1) : notificationCount (transitionEnd id s) ≤ 1 := by
  unfold transitionEnd
  split_ifs
  · exact le_trans (removeElement_filter_sublist _ id s.body).length_le h
  · exact h

theorem notificationCount_toastStep (s : Toasts) (a : ToastAction)
    (h : notificationCount s ≤ 1) : notificationCount (toastStep s a) ≤ 1 := by
  cases a with
  | notify message type =>
    exact le_of_eq (notificationCount_showNotification message type s h)
  | timer k => exact notificationCount_fireTimer k s h
  | transitionEnd id => exact notificationCount_transitionEnd id s h

/-- C7. From a page with no notification, after any sequence of
`showNotification` calls, timer firings and `transitionend` events, in any
order, at most one element with class `notification` is attached. -/
theorem at_most_one_notification (s : Toasts) (acts : List ToastAction)
    (h : notificationCount s = 0) : notificationCount (toastRun acts s) ≤ 1 := by
  have inv : ∀ (acts : List ToastAction) (s : Toasts), notificationCount s ≤ 1 →
      notificationCount (toastRun acts s) ≤ 1 := by
    intro acts
    induction acts with
    | nil => intro s hs; exact hs
    | cons a acts ih =>
      intro s hs
      exact ih _ (notificationCount_toastStep s a hs)
  exact inv acts s (by omega)

theorem at_most_one_notification_witness :
    notificationCount noToasts = 0 ∧
      notificationCount
        (toastRun [.notify "first" "error", .timer 0, .notify "second" "success", .timer 0,
          .timer 1, .transitionEnd 0, .timer 0, .transitionEnd 1] noToasts) ≤ 1 :=
  ⟨by decide, at_most_one_notification noToasts _ (by decide)⟩

/-! ## The reveal animation -/

theorem revealEntry_other (s : RevealState) (en : Entry) (e : Nat)
    (h : en.target = e → en.isIntersecting = false) :
    (revealEntry s en).style e = s.style e ∧ (revealEntry s en).observed e = s.observed e := by
  unfold revealEntry
  by_cases hi : en.isIntersecting = true
  · have hne : e ≠ en.target := fun heq => by
      have := h heq.symm
      rw [hi] at this
      exact Bool.noConfusion this
    simp [hi, Function.update_noteq hne]
  · simp [hi]

/-- The revealed state of an element. -/
theorem revealEntry_keeps (s : RevealState) (en : Entry) (e : Nat)
    (h : (s.style e).opacity = "1" ∧ (s.style e).transform = "translateY(0)" ∧
      s.observed e = false) :
    ((revealEntry s en).style e).opacity = "1" ∧
      ((revealEntry s en).style e).transform = "translateY(0)" ∧
      (revealEntry s en).observed e = false := by
  unfold revealEntry
  by_cases hi : en.isIntersecting = true
  · by_cases he : e = en.target
    · subst he
      simp [hi]
    · simp [hi, Function.update_noteq he, h]
  · simp [hi, h]

theorem revealEntry_hit (s : RevealState) (en : Entry) (hi : en.isIntersecting = true) :
    ((revealEntry s en).style en.target).opacity = "1" ∧
      ((revealEntry s en).style en.target).transform = "translateY(0)" ∧
      (revealEntry s en).observed en.target = false := by
  simp [revealEntry, hi]

theorem observerCallback_other (entries : List Entry) (s : RevealState) (e : Nat)
    (h : ∀ en ∈ entries, en.target = e → en.isIntersecting = false) :
    (observerCallback entries s).style e = s.style e := by
  induction entries generalizing s with
  | nil => rfl
  | cons en entries ih =>
    have h1 := revealEntry_other s en e (h en (List.mem_cons_self _ _))
    have h2 := ih (revealEntry s en) (fun x hx => h x (List.mem_cons_of_mem _ hx))
    simp only [observerCallback, List.foldl_cons] at h2 ⊢
    rw [h2, h1.1]

theorem observerCallback_keeps (entries : List Entry) (s : RevealState) (e : Nat)
    (h : (s.style e).opacity = "1" ∧ (s.style e).transform = "translateY(0)" ∧
      s.observed e = false) :
    ((observerCallback entries s).style e).opacity = "1" ∧
      ((observerCallback entries s).style e).transform = "translateY(0)" ∧
      (observerCallback entries s).observed e = false := by
  induction entries generalizing s with
  | nil => exact h
  | cons en entries ih => exact ih (revealEntry s en) (revealEntry_keeps s en e h)

theorem observerCallback_hit (entries : List Entry) (s : RevealState) (e : Nat)
    (h : ∃ en ∈ entries, en.target = e ∧ en.isIntersecting = true) :
    ((observerCallback entries s).style e).opacity = "1" ∧
      ((observerCallback entries s).style e).transform = "translateY(0)" ∧
      (observerCallback entries s).observed e = false := by
  obtain ⟨en, hmem, rfl, hi⟩ := h
  obtain ⟨pre, post, rfl⟩ := List.append_of_mem hmem
  have : observerCallback (pre ++ en :: post) s =
      observerCallback post (revealEntry (observerCallback pre s) en) := by
    simp [observerCallback, List.foldl_append]
  rw [this]
  exact observerCallback_keeps post _ _ (revealEntry_hit _ en hi)

theorem runCallbacks_other (callbacks : List (List Entry)) (s : RevealState) (e : Nat)
    (h : ∀ c ∈ callbacks, ∀ en ∈ c, en.target = e → en.isIntersecting = false) :
    (runCallbacks callbacks s).style e = s.style e := by
  induction callbacks generalizing s with
  | nil => rfl
  | cons c callbacks ih =>
    have h1 := observerCallback_other c s e (h c (List.mem_cons_self _ _))
    have h2 := ih (observerCallback c s) (fun x hx => h x (List.mem_cons_of_mem _ hx))
    simp only [runCallbacks, List.foldl_cons] at h2 ⊢
    rw [h2, h1]

theorem runCallbacks_keeps (callbacks : List (List Entry)) (s : RevealState) (e : Nat)
    (h : (s.style e).opacity = "1" ∧ (s.style e).transform = "translateY(0)" ∧
      s.observed e = false) :
    ((runCallbacks callbacks s).style e).opacity = "1" ∧
      ((runCallbacks callbacks s).style e).transform = "translateY(0)" ∧
      (runCallbacks callbacks s).observed e = false := by
  induction callbacks generalizing s with
  | nil => exact h
  | cons c callbacks ih => exact ih (observerCallback c s) (observerCallback_keeps c s e h)

theorem initObserverAnimations_hidden (els : List Nat) (s : RevealState) (e : Nat)
    (he : e ∈ els) :
    ((initObserverAnimations els s).style e).opacity = "0" ∧
      (initObserverAnimations els s).observed e = true := by
  induction els using List.reverseRecOn with
  | nil => simp at he
  | append_singleton els x ih =>
    have hstep : initObserverAnimations (els ++ [x]) s =
        hideElement (initObserverAnimations els s) x := by
      simp [initObserverAnimations, List.foldl_append]
    rw [hstep]
    by_cases hx : e = x
    · subst hx
      simp [hideElement]
    · have hmem : e ∈ els := by
        rcases List.mem_append.mp he with h | h
        · exact h
        · exact absurd (List.mem_singleton.mp h) hx
      simpa [hideElement, Function.update_noteq hx] using ih hmem

/-- C10. For an element selected for the reveal animation, after
initialisation and any sequence of observer callbacks: while no entry for it
has had `isIntersecting` true its opacity is `'0'`; a callback with such an
entry leaves its opacity `'1'`, its transform `'translateY(0)'` and the element
unobserved; and after every further sequence of callbacks its opacity is still
`'1'`. -/
theorem reveal_once (els : List Nat) (s0 : RevealState) (e : Nat) (he : e ∈ els)
    (before : List (List Entry)) :
    ((initObserverAnimations els s0).style e).opacity = "0" ∧
      ((∀ c ∈ before, ∀ en ∈ c, en.target = e → en.isIntersecting = false) →
        ((runCallbacks before (initObserverAnimations els s0)).style e).opacity = "0") ∧
      (∀ (s : RevealState) (en : Entry), en.target = e → en.isIntersecting = true →
        ((revealEntry s en).style e).opacity = "1" ∧
          ((revealEntry s en).style e).transform = "translateY(0)" ∧
          (revealEntry s en).observed e = false) ∧
      (∀ (c : List Entry) (after : List (List Entry)),
        (∃ en ∈ c, en.target = e ∧ en.isIntersecting = true) →
          ((runCallbacks (before ++ [c]) (initObserverAnimations els s0)).style e).opacity
              = "1" ∧
            ((runCallbacks (before ++ [c]) (initObserverAnimations els s0)).style e).transform
              = "translateY(0)" ∧
            (runCallbacks (before ++ [c]) (initObserverAnimations els s0)).observed e = false ∧
            ((runCallbacks (before ++ c :: after)
              (initObserverAnimations els s0)).style e).opacity = "1") := by
  have hinit := initObserverAnimations_hidden els s0 e he
  refine ⟨hinit.1, ?_, ?_, ?_⟩
  · intro h
    rw [runCallbacks_other before _ e h]
    exact hinit.1
  · intro s en ht hi
    subst ht
    exact revealEntry_hit s en hi
  · intro c after hc
    have hsplit : ∀ rest, runCallbacks (before ++ c :: rest) (initObserverAnimations els s0) =
        runCallbacks rest
          (observerCallback c (runCallbacks before (initObserverAnimations els s0))) := by
      intro rest
      simp [runCallbacks, List.foldl_append]
    have hhit := observerCallback_hit c
      (runCallbacks before (initObserverAnimations els s0)) e hc
    have h1 := runCallbacks_keeps [] _ e hhit
    have h2 := runCallbacks_keeps after _ e hhit
    rw [← hsplit] at h1 h2
    exact ⟨h1.1, h1.2.1, h1.2.2, h2.1⟩

theorem reveal_once_witness :
    ((runCallbacks ([[⟨2, false⟩]] ++ [⟨1, true⟩, ⟨2, true⟩] :: [[⟨2, false⟩]])
      (initObserverAnimations [1, 2, 3] plainStyles)).style 2).opacity = "1" :=
  ((reveal_once [1, 2, 3] plainStyles 2 (by decide) [[⟨2, false⟩]]).2.2.2
    [⟨1, true⟩, ⟨2, true⟩] [[⟨2, false⟩]] ⟨⟨2, true⟩, by decide, rfl, rfl⟩).2.2.2

/-! ## `debounce` -/

theorem nextDue_singleton_lt {α : Type} (t : Nat) (x : Pending α) (h : t < x.due) :
    nextDue t [x] = none := by
  have : decide (x.due ≤ t) = false := by simpa using h
  simp [nextDue, List.filter_cons, this]

theorem nextDue_singleton_le {α : Type} (t : Nat) (x : Pending α) (h : x.due ≤ t) :
    nextDue t [x] = some x := by
  have : decide (x.due ≤ t) = true := by simpa using h
  simp [nextDue, List.filter_cons, this]

/-- Before the timer is due nothing fires: only the clock moves. -/
theorem elapse_armed_lt {α : Type} (wait d : Nat) (a : α) (s : Debounced α)
    (h : Armed wait a s) (hd : d < wait) :
    elapse d s = { s with now := s.now + d } := by
  obtain ⟨id, -, hp, -⟩ := h
  have hnone : nextDue (s.now + d) s.pending = none := by
    rw [hp]
    exact nextDue_singleton_lt _ _ (by simp; omega)
  have hlen : s.pending.length = 1 := by rw [hp]; rfl
  unfold elapse
  rw [hlen]
  simp only [fireDue, hnone]

/-- Once the timer is due it fires, at its due time, with its arguments. -/
theorem elapse_armed_ge {α : Type} (wait d : Nat) (a : α) (s : Debounced α)
    (h : Armed wait a s) (hd : wait ≤ d) :
    (elapse d s).invoked = [(s.now + wait, a)] ∧ (elapse d s).pending = [] := by
  obtain ⟨id, ht, hp, hi⟩ := h
  have hsome : nextDue (s.now + d) s.pending = some ⟨id, s.now + wait, a⟩ := by
    rw [hp]
    exact nextDue_singleton_le _ _ (by simp; omega)
  have hlen : s.pending.length = 1 := by rw [hp]; rfl
  unfold elapse
  rw [hlen]
  simp only [fireDue, hsome]
  simp [later, clearTimeout, ht, hp, hi]

theorem callAfter_debounce {α : Type} (wait t0 g : Nat) (a : α) :
    Armed wait a (callAfter wait (debounce t0) (g, a)) ∧
      (callAfter wait (debounce t0) (g, a)).now = t0 + g := by
  refine ⟨⟨0, ?_, ?_, ?_⟩, ?_⟩ <;>
    simp [callAfter, executedFunction, elapse, debounce, fireDue, clearTimeout]

theorem callAfter_armed {α : Type} (wait : Nat) (a : α) (s : Debounced α) (c : Nat × α)
    (h : Armed wait a s) (hc : c.1 < wait) :
    Armed wait c.2 (callAfter wait s c) ∧ (callAfter wait s c).now = s.now + c.1 := by
  have he := elapse_armed_lt wait c.1 a s h hc
  obtain ⟨id, ht, hp, hi⟩ := h
  refine ⟨⟨s.nextId, ?_, ?_, ?_⟩, ?_⟩ <;>
    simp [callAfter, he, executedFunction, clearTimeout, ht, hp, hi]

theorem runCalls_armed {α : Type} (wait : Nat) (rest : List (Nat × α)) (c : Nat × α)
    (s : Debounced α) (h : Armed wait c.2 s) (hrest : ∀ x ∈ rest, x.1 < wait) :
    Armed wait ((c :: rest).getLast (List.cons_ne_nil _ _)).2 (runCalls wait rest s) ∧
      (runCalls wait rest s).now = s.now + (rest.map Prod.fst).sum := by
  induction rest generalizing c s with
  | nil => exact ⟨h, by simp [runCalls]⟩
  | cons x rest ih =>
    have hx := callAfter_armed wait c.2 s x h (hrest x (List.mem_cons_self _ _))
    have := ih x (callAfter wait s x) hx.1 (fun y hy => hrest y (List.mem_cons_of_mem _ hy))
    rw [List.getLast_cons_cons]
    refine ⟨this.1, ?_⟩
    have hnow := this.2
    simp only [runCalls, List.foldl_cons, List.map_cons, List.sum_cons] at hnow ⊢
    rw [hnow, hx.2]
    omega

/-- C9. On a virtual clock, for every wait `w` and every non-empty sequence of
calls of the debounced function in which each call after the first comes less
than `w` after the one before: `func` has not been called when the last call
returns, is still not called less than `w` later, and from `w` after the last
call on has been called exactly once, at the time of the last call plus `w`,
with the arguments of the last call. -/
theorem debounce_trailing {α : Type} (wait t0 g0 : Nat) (a0 : α) (rest : List (Nat × α))
    (h : ∀ c ∈ rest, c.1 < wait) :
    (runCalls wait ((g0, a0) :: rest) (debounce t0)).now
        = t0 + g0 + (rest.map Prod.fst).sum ∧
      (runCalls wait ((g0, a0) :: rest) (debounce t0)).invoked = [] ∧
      ∀ d : Nat,
        (d < wait →
          (elapse d (runCalls wait ((g0, a0) :: rest) (debounce t0))).invoked = []) ∧
        (wait ≤ d →
          (elapse d (runCalls wait ((g0, a0) :: rest) (debounce t0))).invoked =
            [(t0 + g0 + (rest.map Prod.fst).sum + wait,
              (((g0, a0) :: rest).getLast (List.cons_ne_nil _ _)).2)]) := by
  have hfirst := callAfter_debounce wait t0 g0 a0
  have hrun := runCalls_armed wait rest (g0, a0) _ hfirst.1 h
  have hunfold : runCalls wait ((g0, a0) :: rest) (debounce t0) =
      runCalls wait rest (callAfter wait (debounce t0) (g0, a0)) := rfl
  rw [hunfold]
  have hnow : (runCalls wait rest (callAfter wait (debounce t0) (g0, a0))).now =
      t0 + g0 + (rest.map Prod.fst).sum := by
    rw [hrun.2, hfirst.2]
  refine ⟨hnow, ?_, ?_⟩
  · obtain ⟨_, -, -, hi⟩ := hrun.1
    exact hi
  · intro d
    constructor
    · intro hd
      rw [elapse_armed_lt wait d _ _ hrun.1 hd]
      obtain ⟨_, -, -, hi⟩ := hrun.1
      exact hi
    · intro hd
      rw [(elapse_armed_ge wait d _ _ hrun.1 hd).1, hnow]

theorem debounce_trailing_witness :
    (elapse 250 (runCalls 250 [(5, "a"), (100, "b"), (249, "c")] (debounce 0))).invoked =
      [(604, "c")] :=
  ((debounce_trailing 250 0 5 "a" [(100, "b"), (249, "c")] (by decide)).2.2 250).2 (by decide)

/-! ## Sample evaluations -/

theorem isValidEmail_samples :
    isValidEmail (utf16 "a@b.c") = true ∧ isValidEmail (utf16 "a@b..c") = true ∧
      isValidEmail (utf16 "a@b.") = false ∧ isValidEmail (utf16 "a b@c.d") = false ∧
      isValidEmail (utf16 "a@b@c.d") = false := by
  decide

theorem trim_sample : trim (utf16 "  a b \n") = utf16 "a b" := by
  decide

end KnotablyYours
